import Mathlib

/-
Verification of the Pyedra HG1G2 fitting pipeline
(src/pyedra/core.py and src/pyedra/hg1g2_model.py).

Identifiers, phase angles and magnitudes of the observation table are
modelled exactly (Int / ℚ); the transcendental quantities produced by the
fit (flux targets, derived parameters) live in ℝ.  The external
collaborators of the numerical core — the reference basis table loaded by
the datasets module, the scipy linear interpolation and the scipy
least-squares solver — are modelled from the spec as explicit parameters
and definitions, as indicated in the doc comments below.
-/

namespace Pyedra

/-- An observation row of the input dataframe: `id` (mpc number of the
asteroid), `alpha` (phase angle in degrees) and `v` (reduced magnitude in
the Johnson V filter).  From the dataframe contract of
src/pyedra/core.py lines 118-121. -/
structure Obs where
  id : Int
  alpha : ℚ
  v : ℚ
deriving DecidableEq

/-- Number of observations of entity `i` in the dataframe: the size of the
group of `i` produced by `df.groupby("id")` in `obs_counter`
(src/pyedra/core.py line 132). -/
def countId (df : List Obs) (i : Int) : ℕ :=
  (df.filter (fun o => o.id = i)).length

/-- The distinct ids of a list, each kept at its first occurrence, in
first-occurrence order.  This is the key set of `df.groupby("id")`
(pandas reports the groups sorted by key, but `obs_counter` is consumed
only through membership and counts, so the traversal order of the keys is
irrelevant). -/
def dedupFirst (l : List Int) : List Int :=
  l.foldl (fun acc i => if i ∈ acc then acc else acc ++ [i]) []

/-- Transcription of `obs_counter` (src/pyedra/core.py lines 113-134):
group the dataframe by `id`, count the observations of each group, and
return the ids whose count is strictly less than `obs`. -/
def obs_counter (df : List Obs) (obs : ℕ) : List Int :=
  (dedupFirst (df.map (fun o => o.id))).filter (fun i => countId df i < obs)

theorem mem_foldl_dedup (l acc : List Int) (i : Int) :
    i ∈ l.foldl (fun acc j => if j ∈ acc then acc else acc ++ [j]) acc ↔
      i ∈ acc ∨ i ∈ l := by
  induction l generalizing acc with
  | nil => simp
  | cons j rest ih =>
    simp only [List.foldl_cons]
    by_cases hj : j ∈ acc
    · rw [if_pos hj, ih]
      constructor
      · rintro (h | h)
        · exact Or.inl h
        · exact Or.inr (List.mem_cons_of_mem _ h)
      · rintro (h | h)
        · exact Or.inl h
        · rcases List.mem_cons.mp h with h | h
          · exact Or.inl (h ▸ hj)
          · exact Or.inr h
    · rw [if_neg hj, ih]
      simp [List.mem_append, or_assoc]

theorem mem_dedupFirst (l : List Int) (i : Int) :
    i ∈ dedupFirst l ↔ i ∈ l := by
  rw [dedupFirst, mem_foldl_dedup]
  simp

theorem nodup_foldl_dedup (l acc : List Int) (h : acc.Nodup) :
    (l.foldl (fun acc j => if j ∈ acc then acc else acc ++ [j]) acc).Nodup := by
  induction l generalizing acc with
  | nil => simpa using h
  | cons j rest ih =>
    simp only [List.foldl_cons]
    by_cases hj : j ∈ acc
    · rw [if_pos hj]; exact ih _ h
    · rw [if_neg hj]
      exact ih _ (by rw [← List.concat_eq_append]; exact h.concat hj)

theorem nodup_dedupFirst (l : List Int) : (dedupFirst l).Nodup :=
  nodup_foldl_dedup l [] List.nodup_nil

theorem mem_obs_counter (df : List Obs) (n : ℕ) (i : Int) :
    i ∈ obs_counter df n ↔ i ∈ df.map (fun o => o.id) ∧ countId df i < n := by
  rw [obs_counter, List.mem_filter, mem_dedupFirst]
  simp

theorem obs_counter_eq_nil (df : List Obs) (n : ℕ) :
    obs_counter df n = [] ↔ ∀ j ∈ df.map (fun o => o.id), n ≤ countId df j := by
  constructor
  · intro h j hj
    by_contra hc
    have : j ∈ obs_counter df n := (mem_obs_counter df n j).mpr ⟨hj, Nat.lt_of_not_le hc⟩
    rw [h] at this
    exact absurd this (List.not_mem_nil j)
  · intro h
    rw [List.eq_nil_iff_forall_not_mem]
    intro j hj
    rcases (mem_obs_counter df n j).mp hj with ⟨hmem, hlt⟩
    exact absurd (h j hmem) (Nat.not_le_of_lt hlt)

/-- C4: `obs_counter` returns exactly the set of entity ids whose
observation count is strictly less than the threshold; `obs_counter df 3`
is empty iff every entity has at least 3 observations; and an entity with
exactly 2 observations belongs to the returned set. -/
theorem claim4_obs_counter_strictly_below (df : List Obs) (n : ℕ) (i : Int) :
    (i ∈ obs_counter df n ↔ i ∈ df.map (fun o => o.id) ∧ countId df i < n) ∧
    (obs_counter df 3 = [] ↔ ∀ j ∈ df.map (fun o => o.id), 3 ≤ countId df j) ∧
    (countId df i = 2 → i ∈ obs_counter df 3) := by
  refine ⟨mem_obs_counter df n i, obs_counter_eq_nil df 3, fun h2 => ?_⟩
  have hpos : 0 < (df.filter (fun o => o.id = i)).length := by
    rw [show (df.filter (fun o => o.id = i)).length = countId df i from rfl, h2]
    exact Nat.succ_pos 1
  rcases List.exists_mem_of_length_pos hpos with ⟨o, ho⟩
  rcases List.mem_filter.mp ho with ⟨hodf, hoid⟩
  refine (mem_obs_counter df 3 i).mpr ⟨?_, by rw [h2]; exact Nat.lt_succ_self 2⟩
  exact List.mem_map.mpr ⟨o, hodf, by simpa using hoid⟩

/-- Example dataframe of the spec (§8): entity 1 has 4 observations,
entity 2 has 2 observations. -/
def exDf4 : List Obs :=
  [⟨1, 1, 10⟩, ⟨1, 2, 10⟩, ⟨1, 3, 10⟩, ⟨1, 4, 10⟩, ⟨2, 1, 10⟩, ⟨2, 2, 10⟩]

theorem claim4_obs_counter_strictly_below_witness :
    (2 ∈ obs_counter exDf4 3 ↔
      2 ∈ exDf4.map (fun o => o.id) ∧ countId exDf4 2 < 3) ∧
    countId exDf4 2 = 2 ∧ 2 ∈ obs_counter exDf4 3 := by
  refine ⟨(claim4_obs_counter_strictly_below exDf4 3 2).1, by decide, ?_⟩
  exact (claim4_obs_counter_strictly_below exDf4 3 2).2.2 (by decide)

/-- Modelled from the spec: a row of the reference basis table returned by
the external dataset collaborator `datasets.load_penttila2016()` (the
pyedra datasets module is not part of the numerical core): a sample
(alpha, phi1, phi2, phi3), the table being sorted ascending by alpha
(spec §3, Reference Sample). -/
structure RefRow where
  alpha : ℚ
  phi1 : ℚ
  phi2 : ℚ
  phi3 : ℚ
deriving DecidableEq

/-- The linear interpolation of the two bracketing reference samples
(x1, y1) and (x2, y2) evaluated at x (spec §4.2). -/
def lerp (x1 y1 x2 y2 x : ℚ) : ℚ :=
  y1 + (y2 - y1) * (x - x1) / (x2 - x1)

/-- Modelled from the spec: `scipy.interpolate.interp1d` with its default
settings, as constructed at src/pyedra/hg1g2_model.py lines 185-187 —
piecewise-linear interpolation through a list of knots, and an error
(`none`) outside the knot range instead of extrapolation. -/
def interpSegs : List (ℚ × ℚ) → ℚ → Option ℚ
  | (x1, y1) :: (x2, y2) :: rest, x =>
    if x < x1 then none
    else if x ≤ x2 then some (lerp x1 y1 x2 y2 x)
    else interpSegs ((x2, y2) :: rest) x
  | _, _ => none

/-- The knots of the first interpolant: alpha paired with phi1
(src/pyedra/hg1g2_model.py line 185). -/
def refPairs1 (t : List RefRow) : List (ℚ × ℚ) :=
  t.map (fun r => (r.alpha, r.phi1))

/-- The knots of the second interpolant: alpha paired with phi2
(src/pyedra/hg1g2_model.py line 186). -/
def refPairs2 (t : List RefRow) : List (ℚ × ℚ) :=
  t.map (fun r => (r.alpha, r.phi2))

/-- The knots of the third interpolant: alpha paired with phi3
(src/pyedra/hg1g2_model.py line 187). -/
def refPairs3 (t : List RefRow) : List (ℚ × ℚ) :=
  t.map (fun r => (r.alpha, r.phi3))

def y_interp1 (t : List RefRow) (x : ℚ) : Option ℚ := interpSegs (refPairs1 t) x

def y_interp2 (t : List RefRow) (x : ℚ) : Option ℚ := interpSegs (refPairs2 t) x

def y_interp3 (t : List RefRow) (x : ℚ) : Option ℚ := interpSegs (refPairs3 t) x

/-- The alpha of the first reference sample (the lower end of the
reference alpha domain). -/
def alphaMin : List RefRow → ℚ
  | [] => 0
  | r :: _ => r.alpha

/-- The alpha of the last reference sample (the upper end of the
reference alpha domain). -/
def alphaMax : List RefRow → ℚ
  | [] => 0
  | [r] => r.alpha
  | _ :: r :: rest => alphaMax (r :: rest)

/-- The abscissa of the last knot of a knot list. -/
def lastX : List (ℚ × ℚ) → ℚ
  | [] => 0
  | [p] => p.1
  | _ :: q :: rest => lastX (q :: rest)

/-- The reference table invariant of spec §3: samples sorted strictly
ascending in alpha. -/
abbrev SortedAlpha (t : List RefRow) : Prop :=
  t.Pairwise (fun r s => r.alpha < s.alpha)

theorem lastX_map_alpha (f : RefRow → ℚ) :
    ∀ t : List RefRow, lastX (t.map (fun r => (r.alpha, f r))) = alphaMax t
  | [] => rfl
  | [_] => rfl
  | _ :: s :: rest => by
    simp only [List.map_cons]
    show lastX ((s.alpha, f s) :: rest.map (fun r => (r.alpha, f r))) = _
    rw [show ((s.alpha, f s) :: rest.map (fun r => (r.alpha, f r))) =
        (s :: rest).map (fun r => (r.alpha, f r)) from rfl]
    rw [lastX_map_alpha f (s :: rest)]
    rfl

theorem lerp_left (x1 y1 x2 y2 : ℚ) :
    lerp x1 y1 x2 y2 x1 = y1 := by
  rw [lerp]
  simp

theorem lerp_right (x1 y1 x2 y2 : ℚ) (h : x1 < x2) :
    lerp x1 y1 x2 y2 x2 = y2 := by
  have hne : x2 - x1 ≠ 0 := sub_ne_zero.mpr (ne_of_gt h)
  rw [lerp, mul_div_assoc, div_self hne]
  ring

theorem interpSegs_bracket (px py qx qy x : ℚ) :
    ∀ (pre post : List (ℚ × ℚ)),
      (pre ++ (px, py) :: (qx, qy) :: post).Pairwise (fun u v => u.1 < v.1) →
      px ≤ x → x ≤ qx →
      interpSegs (pre ++ (px, py) :: (qx, qy) :: post) x =
        some (lerp px py qx qy x) := by
  intro pre
  induction pre with
  | nil =>
    intro post _ hpx hxq
    simp only [List.nil_append, interpSegs]
    rw [if_neg (not_lt.mpr hpx), if_pos hxq]
  | cons a pre1 ih =>
    intro post hs hpx hxq
    obtain ⟨x1, y1⟩ := a
    have hx1p : x1 < px := by
      rcases List.pairwise_cons.mp hs with ⟨h1, _⟩
      exact h1 (px, py) (by simp)
    have hnlt : ¬ x < x1 := not_lt.mpr (le_of_lt (lt_of_lt_of_le hx1p hpx))
    cases pre1 with
    | nil =>
      simp only [List.cons_append, List.nil_append] at hs ⊢
      simp only [interpSegs]
      rw [if_neg hnlt]
      by_cases hxe : x ≤ px
      · have hx : x = px := le_antisymm hxe hpx
        rw [if_pos hxe, hx, lerp_right _ _ _ _ hx1p, lerp_left]
      · rw [if_neg hxe]
        exact ih post (by simpa using List.Pairwise.of_cons hs) hpx hxq
    | cons b pre2 =>
      obtain ⟨x2, y2⟩ := b
      have hx2p : x2 < px := by
        have hs1 := List.Pairwise.of_cons hs
        rcases List.pairwise_cons.mp hs1 with ⟨h1, _⟩
        exact h1 (px, py) (by simp)
      simp only [List.cons_append] at hs ⊢
      simp only [interpSegs]
      rw [if_neg hnlt, if_neg (not_le.mpr (lt_of_lt_of_le hx2p hpx))]
      exact ih post (List.Pairwise.of_cons hs) hpx hxq

theorem interpSegs_knot (l : List (ℚ × ℚ)) (p : ℚ × ℚ)
    (hs : l.Pairwise (fun u v => u.1 < v.1)) (hl : 2 ≤ l.length) (hp : p ∈ l) :
    interpSegs l p.1 = some p.2 := by
  obtain ⟨pre, post, rfl⟩ := List.append_of_mem hp
  obtain ⟨px, py⟩ := p
  cases post with
  | cons q post1 =>
    obtain ⟨qx, qy⟩ := q
    have hpq : px < qx := by
      have h2 := (List.pairwise_append.mp hs).2.1
      rcases List.pairwise_cons.mp h2 with ⟨h1, _⟩
      exact h1 (qx, qy) (by simp)
    rw [interpSegs_bracket px py qx qy px pre post1 hs le_rfl (le_of_lt hpq)]
    rw [lerp_left]
  | nil =>
    rcases List.eq_nil_or_concat pre with rfl | ⟨pre1, q, rfl⟩
    · simp at hl
    · obtain ⟨qx, qy⟩ := q
      have heq : pre1.concat (qx, qy) ++ [(px, py)] =
          pre1 ++ (qx, qy) :: (px, py) :: [] := by
        simp [List.concat_eq_append]
      rw [heq] at hs ⊢
      have hqp : qx < px := by
        have h2 := (List.pairwise_append.mp hs).2.1
        rcases List.pairwise_cons.mp h2 with ⟨h1, _⟩
        exact h1 (px, py) (by simp)
      rw [interpSegs_bracket qx qy px py px pre1 [] hs (le_of_lt hqp) le_rfl]
      rw [lerp_right _ _ _ _ hqp]

theorem interpSegs_total (x : ℚ) :
    ∀ (p q : ℚ × ℚ) (post : List (ℚ × ℚ)),
      ((p :: q :: post).Pairwise (fun u v => u.1 < v.1)) →
      p.1 ≤ x → x ≤ lastX (q :: post) →
      ∃ y, interpSegs (p :: q :: post) x = some y := by
  intro p q post
  induction post generalizing p q with
  | nil =>
    intro _ hpx hxl
    obtain ⟨px, py⟩ := p
    obtain ⟨qx, qy⟩ := q
    have hxq : x ≤ qx := hxl
    refine ⟨lerp px py qx qy x, ?_⟩
    simp only [interpSegs]
    rw [if_neg (not_lt.mpr hpx), if_pos hxq]
  | cons r post1 ih =>
    intro hs hpx hxl
    obtain ⟨px, py⟩ := p
    obtain ⟨qx, qy⟩ := q
    simp only [interpSegs]
    rw [if_neg (not_lt.mpr hpx)]
    by_cases hxq : x ≤ qx
    · exact ⟨lerp px py qx qy x, by rw [if_pos hxq]⟩
    · rw [if_neg hxq]
      exact ih (qx, qy) r (List.Pairwise.of_cons hs) (le_of_not_le hxq) hxl

theorem le_lastX (l : List (ℚ × ℚ)) (q : ℚ × ℚ)
    (hs : ((q :: l).Pairwise (fun u v => u.1 < v.1))) :
    q.1 ≤ lastX (q :: l) := by
  induction l generalizing q with
  | nil => exact le_of_eq rfl
  | cons r l1 ih =>
    have hqr : q.1 < r.1 := by
      rcases List.pairwise_cons.mp hs with ⟨h1, _⟩
      exact h1 r (by simp)
    have := ih r (List.Pairwise.of_cons hs)
    calc q.1 ≤ r.1 := le_of_lt hqr
    _ ≤ lastX (r :: l1) := this

theorem interpSegs_below (p : ℚ × ℚ) (l : List (ℚ × ℚ)) (x : ℚ)
    (h : x < p.1) : interpSegs (p :: l) x = none := by
  obtain ⟨px, py⟩ := p
  cases l with
  | nil => rfl
  | cons q l1 =>
    obtain ⟨qx, qy⟩ := q
    simp only [interpSegs]
    rw [if_pos h]

theorem interpSegs_above (x : ℚ) :
    ∀ (l : List (ℚ × ℚ)),
      (l.Pairwise (fun u v => u.1 < v.1)) → lastX l < x →
      interpSegs l x = none := by
  intro l
  induction l with
  | nil => intro _ _; rfl
  | cons p l1 ih =>
    intro hs hlast
    obtain ⟨px, py⟩ := p
    cases l1 with
    | nil => rfl
    | cons q l2 =>
      obtain ⟨qx, qy⟩ := q
      have hql : qx ≤ lastX ((qx, qy) :: l2) := le_lastX l2 _ (List.Pairwise.of_cons hs)
      have hlast2 : lastX ((qx, qy) :: l2) < x := hlast
      have hpq : px < qx := by
        rcases List.pairwise_cons.mp hs with ⟨h1, _⟩
        exact h1 (qx, qy) (by simp)
      simp only [interpSegs]
      rw [if_neg (not_lt.mpr (le_of_lt (lt_of_lt_of_le (lt_of_lt_of_le hpq hql) (le_of_lt hlast2))))]
      rw [if_neg (not_le.mpr (lt_of_le_of_lt hql hlast2))]
      exact ih (List.Pairwise.of_cons hs) hlast2

/-- Transcription of `_HG1G2_model` (src/pyedra/hg1g2_model.py lines
126-128): the linear combination a*x + b*y + c*z of the three basis
values. -/
def _HG1G2_model (X : ℝ × ℝ × ℝ) (a b c : ℝ) : ℝ :=
  a * X.1 + b * X.2.1 + c * X.2.2

/-- The basis vectors (fi1, fi2, fi3) of one entity: the three
interpolants evaluated at each observed phase angle of the entity, in
observation order (src/pyedra/hg1g2_model.py lines 193-206); `none`
models the error scipy raises on an out-of-domain phase angle. -/
def basisVectors (t : List RefRow) : List Obs → Option (List ℚ × List ℚ × List ℚ)
  | [] => some ([], [], [])
  | o :: rest =>
    match y_interp1 t o.alpha, y_interp2 t o.alpha, y_interp3 t o.alpha,
        basisVectors t rest with
    | some p1, some p2, some p3, some (f1, f2, f3) =>
      some (p1 :: f1, p2 :: f2, p3 :: f3)
    | _, _, _, _ => none

/-- The linear-flux targets of one entity (src/pyedra/hg1g2_model.py
lines 208-209): v_fit = 10 ** (-0.4 * v). -/
noncomputable def v_fitOf (data : List Obs) : List ℝ :=
  data.map (fun o => Real.rpow 10 ((-0.4 : ℝ) * (o.v : ℝ)))

/-- Modelled from the spec: the output of the external least-squares
collaborator scipy.optimize.curve_fit — optimal coefficients (a, b, c)
and their standard errors, the square roots of the covariance diagonal
(src/pyedra/hg1g2_model.py lines 211-214, spec §4.3 step 5). -/
structure FitCoeffs where
  a : ℝ
  b : ℝ
  c : ℝ
  error_a : ℝ
  error_b : ℝ
  error_c : ℝ

/-- Modelled from the spec: the external least-squares solver, abstracted
as a function from the per-entity basis vectors and flux targets to
coefficients and standard errors ("any linear or nonlinear least-squares
solver producing coefficients and their covariance matrix is
acceptable", spec §4.3). -/
def Solver : Type :=
  (List ℚ × List ℚ × List ℚ) → List ℝ → FitCoeffs

/-- Transcription of src/pyedra/hg1g2_model.py line 216. -/
noncomputable def H_1_2 (a b c : ℝ) : ℝ := -2.5 * Real.logb 10 (a + b + c)

/-- Transcription of src/pyedra/hg1g2_model.py lines 217-221. -/
noncomputable def error_H_1_2 (a b c e_a e_b e_c : ℝ) : ℝ :=
  1.0857362 * Real.sqrt (e_a ^ 2 + e_b ^ 2 + e_c ^ 2) / (a + b + c)

/-- Transcription of src/pyedra/hg1g2_model.py line 222. -/
noncomputable def G_1 (a b c : ℝ) : ℝ := a / (a + b + c)

/-- Transcription of src/pyedra/hg1g2_model.py lines 223-225. -/
noncomputable def error_G_1 (a b c e_a e_b e_c : ℝ) : ℝ :=
  Real.sqrt (((b + c) * e_a) ^ 2 + (a * e_b) ^ 2 + (a * e_c) ^ 2) / ((a + b + c) ^ 2)

/-- Transcription of src/pyedra/hg1g2_model.py line 226. -/
noncomputable def G_2 (a b c : ℝ) : ℝ := b / (a + b + c)

/-- Transcription of src/pyedra/hg1g2_model.py lines 227-229. -/
noncomputable def error_G_2 (a b c e_a e_b e_c : ℝ) : ℝ :=
  Real.sqrt ((b * e_a) ^ 2 + ((a + c) * e_b) ^ 2 + (b * e_c) ^ 2) / ((a + b + c) ^ 2)

/-- The model evaluated componentwise on the basis vectors (the
vectorized `_HG1G2_model((fi1, fi2, fi3), *op)` of
src/pyedra/hg1g2_model.py line 231). -/
noncomputable def modelVec (f1 f2 f3 : List ℚ) (a b c : ℝ) : List ℝ :=
  List.zipWith3 (fun (x y z : ℚ) => _HG1G2_model ((x : ℝ), (y : ℝ), (z : ℝ)) a b c) f1 f2 f3

/-- residuals = v_fit − model (src/pyedra/hg1g2_model.py line 231). -/
noncomputable def residualsOf (f1 f2 f3 : List ℚ) (target : List ℝ) (a b c : ℝ) : List ℝ :=
  List.zipWith (fun v m => v - m) target (modelVec f1 f2 f3 a b c)

/-- np.mean (external numpy collaborator): the arithmetic mean. -/
noncomputable def meanR (l : List ℝ) : ℝ := l.sum / l.length

/-- ss_res (src/pyedra/hg1g2_model.py line 232). -/
noncomputable def ss_res (f1 f2 f3 : List ℚ) (target : List ℝ) (a b c : ℝ) : ℝ :=
  ((residualsOf f1 f2 f3 target a b c).map (fun r => r ^ 2)).sum

/-- ss_tot (src/pyedra/hg1g2_model.py line 233). -/
noncomputable def ss_tot (target : List ℝ) : ℝ :=
  (target.map (fun v => (v - meanR target) ^ 2)).sum

/-- r_squared (src/pyedra/hg1g2_model.py line 234). -/
noncomputable def r_squaredOf (f1 f2 f3 : List ℚ) (target : List ℝ) (a b c : ℝ) : ℝ :=
  1 - ss_res f1 f2 f3 target a b c / ss_tot target

/-- One row of the output dataframe (src/pyedra/hg1g2_model.py lines
236-256). -/
structure FitResult where
  id : Int
  H12 : ℝ
  error_H12 : ℝ
  G1 : ℝ
  error_G1 : ℝ
  G2 : ℝ
  error_G2 : ℝ
  R : ℝ

/-- The row built for one entity from the solver output
(src/pyedra/hg1g2_model.py lines 213-243). -/
noncomputable def mkRow (i : Int) (f1 f2 f3 : List ℚ) (target : List ℝ)
    (op : FitCoeffs) : FitResult where
  id := i
  H12 := H_1_2 op.a op.b op.c
  error_H12 := error_H_1_2 op.a op.b op.c op.error_a op.error_b op.error_c
  G1 := G_1 op.a op.b op.c
  error_G1 := error_G_1 op.a op.b op.c op.error_a op.error_b op.error_c
  G2 := G_2 op.a op.b op.c
  error_G2 := error_G_2 op.a op.b op.c op.error_a op.error_b op.error_c
  R := r_squaredOf f1 f2 f3 target op.a op.b op.c

/-- The body of the per-entity loop (src/pyedra/hg1g2_model.py lines
189-243): select the observations of the entity in their original order,
build the basis vectors and flux targets, run the solver, derive the
parameters; `none` when an interpolation is out of domain. -/
noncomputable def fitEntity (t : List RefRow) (s : Solver) (df : List Obs) (i : Int) :
    Option FitResult :=
  let data := df.filter (fun o => o.id = i)
  match basisVectors t data with
  | none => none
  | some (f1, f2, f3) =>
    some (mkRow i f1 f2 f3 (v_fitOf data) (s (f1, f2, f3) (v_fitOf data)))

/-- The per-entity loop itself, over the deduplicated ids; a single
out-of-domain interpolation aborts the whole run. -/
noncomputable def fitAll (t : List RefRow) (s : Solver) (df : List Obs) :
    List Int → Option (List FitResult)
  | [] => some []
  | i :: rest =>
    match fitEntity t s df i, fitAll t s df rest with
    | some r, some rs => some (r :: rs)
    | _, _ => none

/-- pandas drop_duplicates on the id column with keep="first": keeps the
first row of each entity, in first-occurrence order
(src/pyedra/hg1g2_model.py line 167). -/
def drop_duplicates_id (df : List Obs) : List Obs :=
  df.foldl (fun acc o => if o.id ∈ acc.map (fun p => p.id) then acc else acc ++ [o]) []

/-- pandas drop_duplicates together with its inplace flag: the first
component is the returned dataframe, the second the state of the
receiver after the call — replaced by the result only when inplace is
set.  `HG1G2_fit` passes inplace=False (src/pyedra/hg1g2_model.py
line 167). -/
def drop_duplicates (df : List Obs) (inplace : Bool) : List Obs × List Obs :=
  (drop_duplicates_id df, if inplace then drop_duplicates_id df else df)

/-- The error taxonomy of a fit run (spec §7): the ValueError of
src/pyedra/hg1g2_model.py lines 161-165 with its enumerated ids and
message, and the out-of-domain interpolation error. -/
inductive FitError where
  | insufficientObs (ids : List Int) (msg : String)
  | outOfDomain

/-- The output column names, in order (src/pyedra/hg1g2_model.py lines
245-256). -/
def resultColumns : List String :=
  ["id", "H12", "error_H12", "G1", "error_G1", "G2", "error_G2", "R"]

/-- The output dataframe: named columns in a fixed order, one FitResult
per row (src/pyedra/hg1g2_model.py lines 245-256). -/
structure ModelDF where
  columns : List String
  rows : List FitResult

/-- Transcription of `HG1G2_fit` (src/pyedra/hg1g2_model.py lines
131-273).  The second component threads the state of the input
dataframe, to model that the pandas operations used are not in-place.
The external solver and reference table are parameters.  The
PyedraFitDataFrame wrapper, plotter and metadata cache built at lines
258-273 are plotting conveniences outside the numerical core; the model
dataframe they wrap is what is returned here. -/
noncomputable def HG1G2_fit_run (t : List RefRow) (s : Solver) (df : List Obs) :
    Except FitError ModelDF × List Obs :=
  let lt := obs_counter df 3
  if lt = [] then
    let noobAnd := drop_duplicates df false
    match fitAll t s noobAnd.2 (noobAnd.1.map (fun o => o.id)) with
    | none => (Except.error FitError.outOfDomain, noobAnd.2)
    | some rows => (Except.ok ⟨resultColumns, rows⟩, noobAnd.2)
  else
    (Except.error (FitError.insufficientObs lt
      ("Some asteroids has less than 3 observations: " ++
        String.intercalate " - " (lt.map toString))), df)

/-- The fit outcome itself (the value returned by `HG1G2_fit`, or the
exception aborting it). -/
noncomputable def HG1G2_fit (t : List RefRow) (s : Solver) (df : List Obs) :
    Except FitError ModelDF :=
  (HG1G2_fit_run t s df).1

/-- The rows of a fit outcome (empty on error: an aborted run returns no
partial results). -/
def rowsOf : Except FitError ModelDF → List FitResult
  | Except.ok m => m.rows
  | Except.error _ => []

/-- The ids of the returned rows, when the run succeeds. -/
def rowIds : Except FitError ModelDF → Option (List Int)
  | Except.ok m => some (m.rows.map (fun r => r.id))
  | Except.error _ => none

/-- C10: HG1G2_fit leaves its input observation dataframe unchanged —
duplicate-id removal is invoked with inplace=False and the per-entity
selections only read the dataframe, so the dataframe state after the
call equals the input, on every path of the run. -/
theorem claim10_input_unchanged (t : List RefRow) (s : Solver) (df : List Obs) :
    (HG1G2_fit_run t s df).2 = df := by
  simp only [HG1G2_fit_run, drop_duplicates]
  split
  · split
    · simp
    · simp
  · rfl

/-- A small concrete reference table for witnesses: two samples, at
alphas 0 and 10. -/
def exTable : List RefRow := [⟨0, 1, 1/2, 1/4⟩, ⟨10, 0, 0, 0⟩]

/-- A concrete stand-in for the external solver, used in witnesses. -/
noncomputable def constSolver : Solver := fun _ _ => ⟨1, 1, 1, 0, 0, 0⟩

/-- A concrete observation set for witnesses: entities 1 and 2, three
observations each, phase angles inside the reference domain. -/
def exDf : List Obs :=
  [⟨1, 0, 10⟩, ⟨1, 5, 11⟩, ⟨1, 10, 12⟩, ⟨2, 2, 9⟩, ⟨2, 4, 9⟩, ⟨2, 6, 9⟩]

/-- C3: if any entity has fewer than 3 observations, HG1G2_fit raises
the insufficient-observations error before any fitting is performed
(uniformly in the solver and table), the whole run aborts with no
partial results, and the error enumerates every offending entity id in
its id list and message. -/
theorem claim3_insufficient_observations (t : List RefRow) (s : Solver) (df : List Obs)
    (h : obs_counter df 3 ≠ []) :
    HG1G2_fit t s df = Except.error (FitError.insufficientObs (obs_counter df 3)
        ("Some asteroids has less than 3 observations: " ++
          String.intercalate " - " ((obs_counter df 3).map toString))) ∧
    rowsOf (HG1G2_fit t s df) = [] ∧
    (∀ i, i ∈ obs_counter df 3 ↔ i ∈ df.map (fun o => o.id) ∧ countId df i < 3) := by
  have hfit : HG1G2_fit t s df = Except.error (FitError.insufficientObs (obs_counter df 3)
      ("Some asteroids has less than 3 observations: " ++
        String.intercalate " - " ((obs_counter df 3).map toString))) := by
    simp only [HG1G2_fit, HG1G2_fit_run]
    rw [if_neg h]
  exact ⟨hfit, by rw [hfit]; rfl, fun i => mem_obs_counter df 3 i⟩

theorem claim3_insufficient_observations_witness :
    obs_counter exDf4 3 ≠ [] ∧
    HG1G2_fit exTable constSolver exDf4 = Except.error (FitError.insufficientObs [2]
      "Some asteroids has less than 3 observations: 2") := by
  refine ⟨by decide, ?_⟩
  exact (claim3_insufficient_observations exTable constSolver exDf4 (by decide)).1

theorem map_id_foldl_dedup (df : List Obs) :
    ∀ acc : List Obs,
      (df.foldl (fun acc o => if o.id ∈ acc.map (fun p => p.id) then acc else acc ++ [o]) acc).map
          (fun o => o.id) =
        (df.map (fun o => o.id)).foldl (fun acc i => if i ∈ acc then acc else acc ++ [i])
          (acc.map (fun o => o.id)) := by
  induction df with
  | nil => intro acc; rfl
  | cons o rest ih =>
    intro acc
    simp only [List.foldl_cons, List.map_cons]
    by_cases h : o.id ∈ acc.map (fun p => p.id)
    · rw [if_pos h, if_pos h, ih]
    · rw [if_neg h, if_neg h, ih]
      congr 1
      simp

theorem drop_duplicates_id_map (df : List Obs) :
    (drop_duplicates_id df).map (fun o => o.id) = dedupFirst (df.map (fun o => o.id)) := by
  rw [drop_duplicates_id, dedupFirst]
  exact map_id_foldl_dedup df []

theorem fitEntity_eq (t : List RefRow) (s : Solver) (df : List Obs) (i : Int)
    (f1 f2 f3 : List ℚ)
    (hb : basisVectors t (df.filter (fun o => o.id = i)) = some (f1, f2, f3)) :
    fitEntity t s df i =
      some (mkRow i f1 f2 f3 (v_fitOf (df.filter (fun o => o.id = i)))
        (s (f1, f2, f3) (v_fitOf (df.filter (fun o => o.id = i))))) := by
  simp only [fitEntity]
  rw [hb]

theorem fitAll_ok (t : List RefRow) (s : Solver) (df : List Obs) :
    ∀ ids : List Int,
      (∀ i ∈ ids, ∃ r : FitResult, fitEntity t s df i = some r ∧ r.id = i) →
      ∃ rows : List FitResult,
        fitAll t s df ids = some rows ∧ rows.map (fun r => r.id) = ids := by
  intro ids
  induction ids with
  | nil => intro _; exact ⟨[], rfl, rfl⟩
  | cons i rest ih =>
    intro h
    rcases h i (List.mem_cons_self i rest) with ⟨r, hr, hrid⟩
    rcases ih (fun j hj => h j (List.mem_cons_of_mem i hj)) with ⟨rows, hrows, hmap⟩
    refine ⟨r :: rows, ?_, ?_⟩
    · simp only [fitAll]
      rw [hr, hrows]
    · simp [hmap, hrid]

theorem y_interp_total (f : RefRow → ℚ) (t : List RefRow) (hs : SortedAlpha t)
    (hl : 2 ≤ t.length) (x : ℚ) (h1 : alphaMin t ≤ x) (h2 : x ≤ alphaMax t) :
    ∃ y, interpSegs (t.map (fun r => (r.alpha, f r))) x = some y := by
  cases t with
  | nil => simp at hl
  | cons r t1 =>
    cases t1 with
    | nil => simp at hl
    | cons s1 rest =>
      have hpair : ((r :: s1 :: rest).map (fun r => (r.alpha, f r))).Pairwise
          (fun u v => u.1 < v.1) := List.pairwise_map.mpr hs
      simp only [List.map_cons] at hpair
      have h2x : x ≤ lastX ((s1.alpha, f s1) :: rest.map (fun r => (r.alpha, f r))) := by
        rw [show ((s1.alpha, f s1) :: rest.map (fun r => (r.alpha, f r))) =
            (s1 :: rest).map (fun r => (r.alpha, f r)) from rfl]
        rw [lastX_map_alpha f (s1 :: rest)]
        exact h2
      exact interpSegs_total x (r.alpha, f r) (s1.alpha, f s1)
        (rest.map (fun r => (r.alpha, f r))) hpair h1 h2x

theorem basisVectors_total (t : List RefRow) (hs : SortedAlpha t) (hl : 2 ≤ t.length) :
    ∀ data : List Obs,
      (∀ o ∈ data, alphaMin t ≤ o.alpha ∧ o.alpha ≤ alphaMax t) →
      ∃ f1 f2 f3, basisVectors t data = some (f1, f2, f3) := by
  intro data
  induction data with
  | nil => intro _; exact ⟨[], [], [], rfl⟩
  | cons o rest ih =>
    intro h
    rcases h o (List.mem_cons_self o rest) with ⟨ho1, ho2⟩
    rcases y_interp_total (fun r => r.phi1) t hs hl o.alpha ho1 ho2 with ⟨p1, hp1⟩
    rcases y_interp_total (fun r => r.phi2) t hs hl o.alpha ho1 ho2 with ⟨p2, hp2⟩
    rcases y_interp_total (fun r => r.phi3) t hs hl o.alpha ho1 ho2 with ⟨p3, hp3⟩
    rcases ih (fun p hp => h p (List.mem_cons_of_mem o hp)) with ⟨f1, f2, f3, hrest⟩
    refine ⟨p1 :: f1, p2 :: f2, p3 :: f3, ?_⟩
    have hy1 : y_interp1 t o.alpha = some p1 := hp1
    have hy2 : y_interp2 t o.alpha = some p2 := hp2
    have hy3 : y_interp3 t o.alpha = some p3 := hp3
    simp only [basisVectors]
    rw [hy1, hy2, hy3, hrest]

/-- C1: for every observation set in which every entity has at least 3
observations and every phase angle lies within the alpha domain of the
(sorted, at least two-sample) reference table, HG1G2_fit succeeds and
the ids of the returned rows are exactly the distinct entity ids of the
input, one row each, in first-occurrence order. -/
theorem claim1_one_row_per_entity_in_order (t : List RefRow) (s : Solver) (df : List Obs)
    (hs : SortedAlpha t) (hl : 2 ≤ t.length)
    (hcnt : ∀ i ∈ df.map (fun o => o.id), 3 ≤ countId df i)
    (hdom : ∀ o ∈ df, alphaMin t ≤ o.alpha ∧ o.alpha ≤ alphaMax t) :
    rowIds (HG1G2_fit t s df) = some (dedupFirst (df.map (fun o => o.id))) ∧
    (dedupFirst (df.map (fun o => o.id))).Nodup := by
  have hnil : obs_counter df 3 = [] := (obs_counter_eq_nil df 3).mpr hcnt
  have hall : ∀ i ∈ (drop_duplicates_id df).map (fun o => o.id),
      ∃ r : FitResult, fitEntity t s df i = some r ∧ r.id = i := by
    intro i _
    have hdomf : ∀ o ∈ df.filter (fun o => o.id = i),
        alphaMin t ≤ o.alpha ∧ o.alpha ≤ alphaMax t :=
      fun o ho => hdom o (List.mem_of_mem_filter ho)
    rcases basisVectors_total t hs hl (df.filter (fun o => o.id = i)) hdomf with
      ⟨f1, f2, f3, hb⟩
    exact ⟨_, fitEntity_eq t s df i f1 f2 f3 hb, rfl⟩
  rcases fitAll_ok t s df ((drop_duplicates_id df).map (fun o => o.id)) hall with
    ⟨rows, hrows, hmap⟩
  refine ⟨?_, nodup_dedupFirst _⟩
  have hdd2 : (drop_duplicates df false).2 = df := by simp [drop_duplicates]
  have hdd1 : (drop_duplicates df false).1 = drop_duplicates_id df := rfl
  simp only [HG1G2_fit, HG1G2_fit_run]
  rw [if_pos hnil, hdd1, hdd2, hrows]
  simp only [rowIds]
  rw [hmap, drop_duplicates_id_map]

theorem claim1_one_row_per_entity_in_order_witness :
    2 ≤ exTable.length ∧
    rowIds (HG1G2_fit exTable constSolver exDf) = some [1, 2] := by
  refine ⟨by decide, ?_⟩
  exact (claim1_one_row_per_entity_in_order exTable constSolver exDf (by decide)
    (by decide) (by decide) (by decide)).1

/-- The model dataframe of the concrete witness run. -/
noncomputable def exODF : ModelDF :=
  match HG1G2_fit exTable constSolver exDf with
  | Except.ok m => m
  | Except.error _ => ⟨[], []⟩

/-- C9: whenever HG1G2_fit returns a result table, its columns are
exactly id, H12, error_H12, G1, error_G1, G2, error_G2, R, with those
names and in that order. -/
theorem claim9_result_columns (t : List RefRow) (s : Solver) (df : List Obs)
    (m : ModelDF) (hm : HG1G2_fit t s df = Except.ok m) :
    m.columns = ["id", "H12", "error_H12", "G1", "error_G1", "G2", "error_G2", "R"] := by
  simp only [HG1G2_fit, HG1G2_fit_run] at hm
  by_cases h : obs_counter df 3 = []
  · rw [if_pos h] at hm
    cases hfa : fitAll t s (drop_duplicates df false).2
        ((drop_duplicates df false).1.map (fun o => o.id)) with
    | none => rw [hfa] at hm; simp at hm
    | some rows =>
      rw [hfa] at hm
      have h2 : (⟨resultColumns, rows⟩ : ModelDF) = m := Except.ok.inj hm
      rw [← h2]
      rfl
  · rw [if_neg h] at hm
    simp at hm

theorem claim9_result_columns_witness :
    HG1G2_fit exTable constSolver exDf = Except.ok exODF ∧
    exODF.columns = ["id", "H12", "error_H12", "G1", "error_G1", "G2", "error_G2", "R"] := by
  have h : HG1G2_fit exTable constSolver exDf = Except.ok exODF := rfl
  exact ⟨h, claim9_result_columns exTable constSolver exDf exODF h⟩

theorem y_interp_none (f : RefRow → ℚ) (t : List RefRow) (hs : SortedAlpha t) (x : ℚ)
    (hx : x < alphaMin t ∨ alphaMax t < x) :
    interpSegs (t.map (fun r => (r.alpha, f r))) x = none := by
  cases t with
  | nil => rfl
  | cons r t1 =>
    rcases hx with hx | hx
    · simp only [List.map_cons]
      exact interpSegs_below (r.alpha, f r) _ x hx
    · apply interpSegs_above x _ (List.pairwise_map.mpr hs)
      rw [lastX_map_alpha f (r :: t1)]
      exact hx

theorem basisVectors_none (t : List RefRow) :
    ∀ (data : List Obs) (o : Obs), o ∈ data → y_interp1 t o.alpha = none →
      basisVectors t data = none := by
  intro data
  induction data with
  | nil => intro o ho; simp at ho
  | cons p rest ih =>
    intro o ho hnone
    rcases List.mem_cons.mp ho with rfl | ho2
    · simp only [basisVectors]
      rw [hnone]
    · simp only [basisVectors]
      rw [ih o ho2 hnone]
      cases y_interp1 t p.alpha <;> cases y_interp2 t p.alpha <;>
        cases y_interp3 t p.alpha <;> rfl

theorem fitAll_none (t : List RefRow) (s : Solver) (df : List Obs) :
    ∀ (ids : List Int) (i : Int), i ∈ ids → fitEntity t s df i = none →
      fitAll t s df ids = none := by
  intro ids
  induction ids with
  | nil => intro i hi; simp at hi
  | cons j rest ih =>
    intro i hi hnone
    rcases List.mem_cons.mp hi with rfl | hi2
    · simp only [fitAll]
      rw [hnone]
    · simp only [fitAll]
      rw [ih i hi2 hnone]
      cases fitEntity t s df j <;> rfl

theorem mem_drop_duplicates_id_map (df : List Obs) (i : Int) :
    i ∈ (drop_duplicates_id df).map (fun o => o.id) ↔ i ∈ df.map (fun o => o.id) := by
  rw [drop_duplicates_id_map, mem_dedupFirst]

/-- C6: evaluating any of the three interpolants at a phase angle
strictly outside [min alpha, max alpha] of the sorted reference table
yields the out-of-domain error and no value; and when an observation of
an otherwise well-populated observation set has such a phase angle, the
entire fit run aborts with the out-of-domain error. -/
theorem claim6_out_of_domain_fatal (t : List RefRow) (s : Solver) (df : List Obs)
    (o : Obs) (x : ℚ) (hs : SortedAlpha t)
    (hx : x < alphaMin t ∨ alphaMax t < x)
    (hcnt : obs_counter df 3 = []) (ho : o ∈ df)
    (hoa : o.alpha < alphaMin t ∨ alphaMax t < o.alpha) :
    (y_interp1 t x = none ∧ y_interp2 t x = none ∧ y_interp3 t x = none) ∧
    HG1G2_fit t s df = Except.error FitError.outOfDomain := by
  refine ⟨⟨y_interp_none (fun r => r.phi1) t hs x hx,
      y_interp_none (fun r => r.phi2) t hs x hx,
      y_interp_none (fun r => r.phi3) t hs x hx⟩, ?_⟩
  have hone : y_interp1 t o.alpha = none := y_interp_none (fun r => r.phi1) t hs o.alpha hoa
  have hodata : o ∈ df.filter (fun p => p.id = o.id) :=
    List.mem_filter.mpr ⟨ho, by simp⟩
  have hbv : basisVectors t (df.filter (fun p => p.id = o.id)) = none :=
    basisVectors_none t _ o hodata hone
  have hfe : fitEntity t s df o.id = none := by
    simp only [fitEntity]
    rw [hbv]
  have hmem : o.id ∈ (drop_duplicates_id df).map (fun p => p.id) :=
    (mem_drop_duplicates_id_map df o.id).mpr (List.mem_map_of_mem _ ho)
  have hfa : fitAll t s df ((drop_duplicates_id df).map (fun p => p.id)) = none :=
    fitAll_none t s df _ o.id hmem hfe
  have hdd2 : (drop_duplicates df false).2 = df := by simp [drop_duplicates]
  have hdd1 : (drop_duplicates df false).1 = drop_duplicates_id df := rfl
  simp only [HG1G2_fit, HG1G2_fit_run]
  rw [if_pos hcnt, hdd1, hdd2, hfa]

/-- A concrete observation set whose entity 1 has three observations,
one of them at phase angle 20, outside the domain of the witness table. -/
def exDfOut : List Obs := [⟨1, 1, 10⟩, ⟨1, 2, 10⟩, ⟨1, 20, 10⟩]

theorem claim6_out_of_domain_fatal_witness :
    obs_counter exDfOut 3 = [] ∧
    (y_interp1 exTable 20 = none ∧ y_interp2 exTable 20 = none ∧
      y_interp3 exTable 20 = none) ∧
    HG1G2_fit exTable constSolver exDfOut = Except.error FitError.outOfDomain := by
  have h := claim6_out_of_domain_fatal exTable constSolver exDfOut ⟨1, 20, 10⟩ 20
    (by decide) (by decide) (by decide) (by decide) (by decide)
  exact ⟨by decide, h.1, h.2⟩

theorem y_interp_knot (f : RefRow → ℚ) (t : List RefRow) (r : RefRow)
    (hs : SortedAlpha t) (hl : 2 ≤ t.length) (hr : r ∈ t) :
    interpSegs (t.map (fun u => (u.alpha, f u))) r.alpha = some (f r) := by
  have h := interpSegs_knot (t.map (fun u => (u.alpha, f u))) (r.alpha, f r)
    (List.pairwise_map.mpr hs) (by simpa using hl) (List.mem_map_of_mem _ hr)
  simpa using h

theorem y_interp_bracket (f : RefRow → ℚ) (pre post : List RefRow) (r1 r2 : RefRow)
    (x : ℚ) (hs : SortedAlpha (pre ++ r1 :: r2 :: post))
    (hx1 : r1.alpha ≤ x) (hx2 : x ≤ r2.alpha) :
    interpSegs ((pre ++ r1 :: r2 :: post).map (fun u => (u.alpha, f u))) x =
      some (lerp r1.alpha (f r1) r2.alpha (f r2) x) := by
  have hpair : ((pre ++ r1 :: r2 :: post).map (fun u => (u.alpha, f u))).Pairwise
      (fun u v => u.1 < v.1) := List.pairwise_map.mpr hs
  simp only [List.map_append, List.map_cons] at hpair ⊢
  exact interpSegs_bracket r1.alpha (f r1) r2.alpha (f r2) x
    (pre.map (fun u => (u.alpha, f u))) (post.map (fun u => (u.alpha, f u))) hpair hx1 hx2

/-- C7: each of the three interpolants, evaluated at the alpha of a
reference row, returns the exact phi value of that row; and evaluated between
two adjacent knots it returns the linear interpolation of the two
bracketing reference samples. -/
theorem claim7_interpolation_exact_and_linear (t : List RefRow) (r : RefRow)
    (pre post : List RefRow) (r1 r2 : RefRow) (x : ℚ)
    (hs : SortedAlpha t) (hl : 2 ≤ t.length) (hr : r ∈ t)
    (ht : t = pre ++ r1 :: r2 :: post) (hx1 : r1.alpha ≤ x) (hx2 : x ≤ r2.alpha) :
    (y_interp1 t r.alpha = some r.phi1 ∧
     y_interp2 t r.alpha = some r.phi2 ∧
     y_interp3 t r.alpha = some r.phi3) ∧
    (y_interp1 t x = some (lerp r1.alpha r1.phi1 r2.alpha r2.phi1 x) ∧
     y_interp2 t x = some (lerp r1.alpha r1.phi2 r2.alpha r2.phi2 x) ∧
     y_interp3 t x = some (lerp r1.alpha r1.phi3 r2.alpha r2.phi3 x)) := by
  subst ht
  exact ⟨⟨y_interp_knot (fun u => u.phi1) _ r hs hl hr,
      y_interp_knot (fun u => u.phi2) _ r hs hl hr,
      y_interp_knot (fun u => u.phi3) _ r hs hl hr⟩,
    ⟨y_interp_bracket (fun u => u.phi1) pre post r1 r2 x hs hx1 hx2,
      y_interp_bracket (fun u => u.phi2) pre post r1 r2 x hs hx1 hx2,
      y_interp_bracket (fun u => u.phi3) pre post r1 r2 x hs hx1 hx2⟩⟩

theorem claim7_interpolation_exact_and_linear_witness :
    y_interp1 exTable 0 = some 1 ∧
    y_interp1 exTable 5 = some (1 / 2) ∧
    y_interp2 exTable 5 = some (1 / 4) ∧
    y_interp3 exTable 5 = some (1 / 8) := by
  have h := claim7_interpolation_exact_and_linear exTable ⟨0, 1, 1/2, 1/4⟩ [] []
    ⟨0, 1, 1/2, 1/4⟩ ⟨10, 0, 0, 0⟩ 5 (by decide) (by decide) (by simp [exTable]) rfl
    (by decide) (by decide)
  refine ⟨h.1.1, ?_, ?_, ?_⟩
  · rw [h.2.1]; norm_num [lerp]
  · rw [h.2.2.1]; norm_num [lerp]
  · rw [h.2.2.2]; norm_num [lerp]

/-- The H12 formula of the spec (spec §4.4), in terms of s = a + b + c. -/
noncomputable def specH12 (s : ℝ) : ℝ := -2.5 * Real.logb 10 s

/-- The error_H12 formula of the spec, with the constant written exactly as
the spec states it. -/
noncomputable def specErrorH12 (s sa sb sc : ℝ) : ℝ :=
  1.0857362 * Real.sqrt (sa ^ 2 + sb ^ 2 + sc ^ 2) / s

/-- The G1 formula of the spec. -/
noncomputable def specG1 (a s : ℝ) : ℝ := a / s

/-- The error_G1 formula of the spec. -/
noncomputable def specErrorG1 (a b c s sa sb sc : ℝ) : ℝ :=
  Real.sqrt (((b + c) * sa) ^ 2 + (a * sb) ^ 2 + (a * sc) ^ 2) / s ^ 2

/-- The G2 formula of the spec. -/
noncomputable def specG2 (b s : ℝ) : ℝ := b / s

/-- The error_G2 formula of the spec. -/
noncomputable def specErrorG2 (a b c s sa sb sc : ℝ) : ℝ :=
  Real.sqrt ((b * sa) ^ 2 + ((a + c) * sb) ^ 2 + (b * sc) ^ 2) / s ^ 2

/-- The R formula of the spec: 1 − Σ residuals² / Σ (target − mean target)². -/
noncomputable def specR (residuals target : List ℝ) : ℝ :=
  1 - (residuals.map (fun r => r ^ 2)).sum /
    ((target.map (fun v => (v - target.sum / target.length) ^ 2)).sum)

/-- C2: the row derived for a fitted entity carries exactly the spec
closed-form parameters, with s = a + b + c taken from the solver
output: H12 = −2.5·log10 s, error_H12 = 1.0857362·sqrt(σa²+σb²+σc²)/s
(constant reproduced exactly), G1 = a/s and G2 = b/s with their
propagated errors over s², and R = 1 − Σresiduals²/Σ(target − mean
target)². -/
theorem claim2_derived_parameter_formulas (i : Int) (op : FitCoeffs)
    (f1 f2 f3 : List ℚ) (target : List ℝ) :
    (mkRow i f1 f2 f3 target op).H12 = specH12 (op.a + op.b + op.c) ∧
    (mkRow i f1 f2 f3 target op).error_H12 =
      specErrorH12 (op.a + op.b + op.c) op.error_a op.error_b op.error_c ∧
    (mkRow i f1 f2 f3 target op).G1 = specG1 op.a (op.a + op.b + op.c) ∧
    (mkRow i f1 f2 f3 target op).error_G1 =
      specErrorG1 op.a op.b op.c (op.a + op.b + op.c) op.error_a op.error_b op.error_c ∧
    (mkRow i f1 f2 f3 target op).G2 = specG2 op.b (op.a + op.b + op.c) ∧
    (mkRow i f1 f2 f3 target op).error_G2 =
      specErrorG2 op.a op.b op.c (op.a + op.b + op.c) op.error_a op.error_b op.error_c ∧
    (mkRow i f1 f2 f3 target op).R =
      specR (residualsOf f1 f2 f3 target op.a op.b op.c) target :=
  ⟨rfl, rfl, rfl, rfl, rfl, rfl, rfl⟩

/-- Modelled from the spec: the objective scipy.optimize.curve_fit
minimizes for `_HG1G2_model` on data (X, y) — the sum of the squared
residuals of the model against y (spec §4.3 step 4). -/
noncomputable def curveFitObjective (f1 f2 f3 : List ℚ) (y : List ℝ) (a b c : ℝ) : ℝ :=
  ((List.zipWith (fun v m => v - m) y (modelVec f1 f2 f3 a b c)).map (fun r => r ^ 2)).sum

/-- C5: the per-entity fit hands the external solver exactly the
interpolated basis vectors of the phase angles of the entity and the targets
10^(−0.4·v) of its magnitudes, and the least-squares objective for the
model a·fi1 + b·fi2 + c·fi3 on those inputs is the sum of the squared
differences between target and model. -/
theorem claim5_flux_target_least_squares (t : List RefRow) (s : Solver) (df : List Obs)
    (i : Int) (f1 f2 f3 : List ℚ) (a b c : ℝ)
    (hb : basisVectors t (df.filter (fun o => o.id = i)) = some (f1, f2, f3)) :
    fitEntity t s df i =
      some (mkRow i f1 f2 f3 (v_fitOf (df.filter (fun o => o.id = i)))
        (s (f1, f2, f3) (v_fitOf (df.filter (fun o => o.id = i))))) ∧
    v_fitOf (df.filter (fun o => o.id = i)) =
      (df.filter (fun o => o.id = i)).map (fun o => Real.rpow 10 ((-0.4 : ℝ) * (o.v : ℝ))) ∧
    curveFitObjective f1 f2 f3 (v_fitOf (df.filter (fun o => o.id = i))) a b c =
      (List.zipWith (fun v m => (v - m) ^ 2)
        (v_fitOf (df.filter (fun o => o.id = i)))
        (List.zipWith3 (fun (x y z : ℚ) => a * (x : ℝ) + b * (y : ℝ) + c * (z : ℝ)) f1 f2 f3)).sum := by
  refine ⟨fitEntity_eq t s df i f1 f2 f3 hb, rfl, ?_⟩
  rw [curveFitObjective, List.map_zipWith]
  simp only [modelVec, _HG1G2_model]

theorem claim5_flux_target_least_squares_witness :
    basisVectors exTable (exDf.filter (fun o => o.id = 1)) =
      some ([1, 1/2, 0], [1/2, 1/4, 0], [1/4, 1/8, 0]) ∧
    fitEntity exTable constSolver exDf 1 =
      some (mkRow 1 [1, 1/2, 0] [1/2, 1/4, 0] [1/4, 1/8, 0]
        (v_fitOf (exDf.filter (fun o => o.id = 1)))
        (constSolver ([1, 1/2, 0], [1/2, 1/4, 0], [1/4, 1/8, 0])
          (v_fitOf (exDf.filter (fun o => o.id = 1))))) := by
  have hb : basisVectors exTable (exDf.filter (fun o => o.id = 1)) =
      some ([1, 1/2, 0], [1/2, 1/4, 0], [1/4, 1/8, 0]) := by
    norm_num [exDf, basisVectors, y_interp1, y_interp2, y_interp3, refPairs1,
      refPairs2, refPairs3, exTable, interpSegs, lerp, List.filter]
  exact ⟨hb, (claim5_flux_target_least_squares exTable constSolver exDf 1
    [1, 1/2, 0] [1/2, 1/4, 0] [1/4, 1/8, 0] 0 0 0 hb).1⟩

/-- The property claimed of every fitted entity: all three reported
uncertainties are nonnegative. -/
def errsNonneg (e : Except FitError ModelDF) : Prop :=
  ∀ r ∈ rowsOf e, 0 ≤ r.error_H12 ∧ 0 ≤ r.error_G1 ∧ 0 ≤ r.error_G2

/-- The nonnegativity that does hold of every fitted entity: the two
slope-parameter uncertainties. -/
def g12ErrsNonneg (e : Except FitError ModelDF) : Prop :=
  ∀ r ∈ rowsOf e, 0 ≤ r.error_G1 ∧ 0 ≤ r.error_G2

/-- A solver outcome with negative coefficient sum a+b+c = −1 and
σa = 1, as the unconstrained external solver may produce. -/
noncomputable def badSolver : Solver := fun _ _ => ⟨-1, 0, 0, 1, 0, 0⟩

theorem fitAll_mem_shape (t : List RefRow) (s : Solver) (df : List Obs) :
    ∀ (ids : List Int) (rows : List FitResult) (r : FitResult),
      fitAll t s df ids = some rows → r ∈ rows →
      ∃ (i : Int) (f1 f2 f3 : List ℚ),
        r = mkRow i f1 f2 f3 (v_fitOf (df.filter (fun o => o.id = i)))
          (s (f1, f2, f3) (v_fitOf (df.filter (fun o => o.id = i)))) := by
  intro ids
  induction ids with
  | nil =>
    intro rows r hfa hr
    simp only [fitAll] at hfa
    obtain rfl : ([] : List FitResult) = rows := Option.some.inj hfa
    simp at hr
  | cons j rest ih =>
    intro rows r hfa hr
    simp only [fitAll] at hfa
    cases hfe : fitEntity t s df j with
    | none => rw [hfe] at hfa; simp at hfa
    | some r0 =>
      rw [hfe] at hfa
      cases hfr : fitAll t s df rest with
      | none => rw [hfr] at hfa; simp at hfa
      | some rs =>
        rw [hfr] at hfa
        obtain rfl : r0 :: rs = rows := Option.some.inj hfa
        rcases List.mem_cons.mp hr with rfl | hr2
        · simp only [fitEntity] at hfe
          cases hbv : basisVectors t (df.filter (fun o => o.id = j)) with
          | none => rw [hbv] at hfe; simp at hfe
          | some triple =>
            obtain ⟨f1, f2, f3⟩ := triple
            rw [hbv] at hfe
            exact ⟨j, f1, f2, f3, (Option.some.inj hfe).symm⟩
        · exact ih rs r hfr hr2

theorem fit_row_shape (t : List RefRow) (s : Solver) (df : List Obs) (r : FitResult)
    (hr : r ∈ rowsOf (HG1G2_fit t s df)) :
    ∃ (i : Int) (f1 f2 f3 : List ℚ),
      r = mkRow i f1 f2 f3 (v_fitOf (df.filter (fun o => o.id = i)))
        (s (f1, f2, f3) (v_fitOf (df.filter (fun o => o.id = i)))) := by
  have hdd2 : (drop_duplicates df false).2 = df := by simp [drop_duplicates]
  have hdd1 : (drop_duplicates df false).1 = drop_duplicates_id df := rfl
  by_cases h : obs_counter df 3 = []
  · cases hfa : fitAll t s df ((drop_duplicates_id df).map (fun o => o.id)) with
    | none =>
      have hfit : HG1G2_fit t s df = Except.error FitError.outOfDomain := by
        simp only [HG1G2_fit, HG1G2_fit_run]
        rw [if_pos h, hdd1, hdd2, hfa]
      rw [hfit] at hr
      simp [rowsOf] at hr
    | some rows =>
      have hfit : HG1G2_fit t s df = Except.ok ⟨resultColumns, rows⟩ := by
        simp only [HG1G2_fit, HG1G2_fit_run]
        rw [if_pos h, hdd1, hdd2, hfa]
      rw [hfit] at hr
      simp only [rowsOf] at hr
      exact fitAll_mem_shape t s df _ rows r hfa hr
  · have hfit : HG1G2_fit t s df = Except.error (FitError.insufficientObs (obs_counter df 3)
        ("Some asteroids has less than 3 observations: " ++
          String.intercalate " - " ((obs_counter df 3).map toString))) := by
      simp only [HG1G2_fit, HG1G2_fit_run]
      rw [if_neg h]
    rw [hfit] at hr
    simp [rowsOf] at hr

/-- C8 counterexample: with a solver outcome whose coefficient sum is
−1 and σa = 1 — which the unconstrained external solver may return —
the error_H12 of the fitted entity equals −1.0857362 < 0, so the reported
uncertainties of a fitted entity are not all nonnegative. -/
theorem claim8_errors_nonneg_counterexample :
    ¬ errsNonneg (HG1G2_fit exTable badSolver exDf) := by
  intro hcl
  have hnil : obs_counter exDf 3 = [] := by decide
  have hall : ∀ i ∈ (drop_duplicates_id exDf).map (fun o => o.id),
      ∃ r : FitResult, fitEntity exTable badSolver exDf i = some r ∧ r.id = i := by
    intro i _
    have hdomall : ∀ o ∈ exDf, alphaMin exTable ≤ o.alpha ∧ o.alpha ≤ alphaMax exTable := by
      decide
    have hdomf : ∀ o ∈ exDf.filter (fun o => o.id = i),
        alphaMin exTable ≤ o.alpha ∧ o.alpha ≤ alphaMax exTable :=
      fun o ho => hdomall o (List.mem_of_mem_filter ho)
    rcases basisVectors_total exTable (by decide) (by decide)
      (exDf.filter (fun o => o.id = i)) hdomf with ⟨f1, f2, f3, hb⟩
    exact ⟨_, fitEntity_eq exTable badSolver exDf i f1 f2 f3 hb, rfl⟩
  rcases fitAll_ok exTable badSolver exDf
    ((drop_duplicates_id exDf).map (fun o => o.id)) hall with ⟨rows, hrows, hmap⟩
  have hfit : HG1G2_fit exTable badSolver exDf = Except.ok ⟨resultColumns, rows⟩ := by
    simp only [HG1G2_fit, HG1G2_fit_run]
    rw [if_pos hnil]
    rw [show (drop_duplicates exDf false).2 = exDf from by simp [drop_duplicates],
      show (drop_duplicates exDf false).1 = drop_duplicates_id exDf from rfl, hrows]
  have hne : rows ≠ [] := by
    intro hrnil
    rw [hrnil] at hmap
    have : (drop_duplicates_id exDf).map (fun o => o.id) = [] := hmap.symm
    revert this
    decide
  obtain ⟨r, rest, rfl⟩ : ∃ r rest, rows = r :: rest := by
    cases rows with
    | nil => exact absurd rfl hne
    | cons r rest => exact ⟨r, rest, rfl⟩
  have hrmem : r ∈ rowsOf (HG1G2_fit exTable badSolver exDf) := by
    rw [hfit]
    simp [rowsOf]
  rcases fitAll_mem_shape exTable badSolver exDf _ _ r hrows (by simp) with
    ⟨i, f1, f2, f3, rfl⟩
  have h0 : (0 : ℝ) ≤ error_H_1_2 (-1) 0 0 1 0 0 := (hcl _ hrmem).1
  have hneg : error_H_1_2 (-1 : ℝ) 0 0 1 0 0 < 0 := by
    rw [error_H_1_2]
    rw [show ((1 : ℝ) ^ 2 + 0 ^ 2 + 0 ^ 2) = 1 by norm_num, Real.sqrt_one]
    norm_num
  linarith

theorem error_G_1_nonneg (a b c e_a e_b e_c : ℝ) :
    0 ≤ error_G_1 a b c e_a e_b e_c :=
  div_nonneg (Real.sqrt_nonneg _) (sq_nonneg _)

theorem error_G_2_nonneg (a b c e_a e_b e_c : ℝ) :
    0 ≤ error_G_2 a b c e_a e_b e_c :=
  div_nonneg (Real.sqrt_nonneg _) (sq_nonneg _)

/-- C8 amended: for every fitted entity the reported error_G1 and
error_G2 are nonnegative (square roots of sums of squares over the
square s²); error_H12, whose denominator is s itself, is nonnegative
whenever the fitted coefficient sum s = a+b+c is positive, but can be
negative when the solver returns a negative coefficient sum. -/
theorem claim8_errors_nonneg_amended (t : List RefRow) (s : Solver) (df : List Obs)
    (a b c e_a e_b e_c : ℝ) :
    g12ErrsNonneg (HG1G2_fit t s df) ∧
    (0 < a + b + c → 0 ≤ error_H_1_2 a b c e_a e_b e_c) := by
  constructor
  · intro r hr
    rcases fit_row_shape t s df r hr with ⟨i, f1, f2, f3, rfl⟩
    exact ⟨error_G_1_nonneg _ _ _ _ _ _, error_G_2_nonneg _ _ _ _ _ _⟩
  · intro hpos
    rw [error_H_1_2]
    exact div_nonneg (mul_nonneg (by norm_num) (Real.sqrt_nonneg _)) (le_of_lt hpos)

theorem claim8_errors_nonneg_amended_witness :
    g12ErrsNonneg (HG1G2_fit exTable constSolver exDf) ∧
    (0 : ℝ) < 1 + 0 + 0 ∧ (0 : ℝ) ≤ error_H_1_2 1 0 0 0 0 0 := by
  have h := claim8_errors_nonneg_amended exTable constSolver exDf 1 0 0 0 0 0
  exact ⟨h.1, by norm_num, h.2 (by norm_num)⟩

end Pyedra
